import Mathlib

/-!
# Verification of the superque wait-time estimation engine

A shallow embedding, in Lean 4, of the queue-management utilities of the
`superque` repository (`packages/shared/src/utils/{queue,time,geo,notifications}.ts`),
together with theorems settling the frozen specification claims.

Modelling conventions:
* JavaScript numbers are modelled as rationals (`ℚ`); the geodesic functions,
  which are built from transcendental functions, are modelled over the reals.
* `Math.round` is `jsRound` (round half toward positive infinity),
  `Math.floor`/`Math.ceil` are `Int.floor`/`Int.ceil`.
* `Math.random()` is an explicit `rand` argument (the value of the draw),
  and `new Date()` clock reads are explicit `clock`/`now` arguments, so that
  the hidden ambient inputs of the JavaScript code become visible inputs here.
* Fallible operations (the time-unit dispatches that `throw`) return `Except`.
-/

/-- JavaScript `Math.round`: round half toward positive infinity. -/
def jsRound (x : ℚ) : ℤ := ⌊x + 1/2⌋

namespace QueueUtils

/-- `QueueUtils.calculateWaitTime` from `utils/queue.ts`.
`rand` is the value drawn from `Math.random()` (in `[0,1)`). -/
def calculateWaitTime (position averageServiceTime varianceServiceTime rand : ℚ) : ℚ :=
  let waitTime := position * averageServiceTime
  let waitTime2 :=
    if 0 < varianceServiceTime then waitTime * (1 + (rand * 2 - 1) * varianceServiceTime)
    else waitTime
  max 0 ((jsRound waitTime2 : ℤ) : ℚ)

/-- `QueueUtils.estimateTimeUntilPosition` from `utils/queue.ts`. -/
def estimateTimeUntilPosition (currentPosition targetPosition averageServiceTime : ℚ) : ℚ :=
  if currentPosition ≤ 0 ∨ targetPosition ≤ 0 ∨ targetPosition > currentPosition then 0
  else ((jsRound ((currentPosition - targetPosition) * averageServiceTime) : ℤ) : ℚ)

/-- `QueueUtils.estimateServedInTime` from `utils/queue.ts`. -/
def estimateServedInTime (timePeriod averageServiceTime numServers : ℚ) : ℚ :=
  if averageServiceTime ≤ 0 then 0
  else ((⌊timePeriod * numServers / averageServiceTime⌋ : ℤ) : ℚ)

/-- `QueueUtils.calculateOptimalServers` from `utils/queue.ts`. -/
def calculateOptimalServers (queueLength averageServiceTime targetWaitTime : ℚ) : ℚ :=
  if averageServiceTime ≤ 0 ∨ targetWaitTime ≤ 0 then 1
  else max 1 ((⌈queueLength * averageServiceTime / targetWaitTime⌉ : ℤ) : ℚ)

/-- `QueueUtils.calculateNoShowProbability` from `utils/queue.ts`. -/
def calculateNoShowProbability (totalNoShows totalEntries : ℚ) : ℚ :=
  if totalEntries ≤ 0 then 0
  else min 1 (max 0 (totalNoShows / totalEntries))

/-- `QueueUtils.adjustForNoShowProbability` from `utils/queue.ts`.
`mexp` is the ambient `Math.exp` map (injected so that the model stays
executable; the claims about this function only concern the guard branch,
which holds for every exponential map). -/
def adjustForNoShowProbability (mexp : ℚ → ℚ)
    (estimatedWaitTime noShowProbability position : ℚ) : ℚ :=
  if noShowProbability ≤ 0 ∨ position ≤ 0 then estimatedWaitTime
  else
    ((jsRound (estimatedWaitTime * (1 - noShowProbability * (1 - mexp (-position / 10)))) : ℤ) : ℚ)

/-- The five-value queue-entry status union type (`types/queue.ts`). -/
inductive QueueEntryStatus
  | WAITING
  | CALLED
  | SERVED
  | NOSHOW
  | CANCELLED
deriving DecidableEq, BEq

/-- `QueueUtils.isActiveStatus` from `utils/queue.ts`
(`['WAITING', 'CALLED'].includes(status)`). -/
def isActiveStatus (status : QueueEntryStatus) : Bool :=
  [QueueEntryStatus.WAITING, QueueEntryStatus.CALLED].contains status

/-- `QueueUtils.isCompletedStatus` from `utils/queue.ts`
(`['SERVED', 'NOSHOW', 'CANCELLED'].includes(status)`). -/
def isCompletedStatus (status : QueueEntryStatus) : Bool :=
  [QueueEntryStatus.SERVED, QueueEntryStatus.NOSHOW, QueueEntryStatus.CANCELLED].contains status

/-- Confidence label of a leave-time recommendation (`'high' | 'medium' | 'low'`). -/
inductive Confidence
  | high
  | medium
  | low
deriving DecidableEq

/-- The optional-argument record of `calculateRecommendedLeaveTime`
(`options` in `utils/queue.ts`); `none` means the argument was omitted.
`bufferTime` here is the buffer fraction, as in the source. -/
structure LeaveOptions where
  varianceServiceTime : Option ℚ
  bufferTime : Option ℚ
  minBufferTime : Option ℚ
  maxBufferTime : Option ℚ
  currentTime : Option ℚ

/-- The record returned by `calculateRecommendedLeaveTime`.  Timestamps
(`leaveAt`) are epoch milliseconds; durations are seconds. -/
structure LeaveTimeRecommendation where
  position : ℚ
  estimatedWaitTime : ℚ
  travelTime : ℚ
  bufferTime : ℚ
  recommendedLeaveIn : ℚ
  leaveAt : ℚ
  confidence : Confidence

/-- `QueueUtils.calculateRecommendedLeaveTime` from `utils/queue.ts`.
`clock` is the ambient `new Date()` reading (epoch ms) used when
`options.currentTime` is omitted; `rand` is the `Math.random()` draw consumed
by the inner `calculateWaitTime` call. -/
def calculateRecommendedLeaveTime (position averageServiceTime travelTime : ℚ)
    (options : LeaveOptions) (clock rand : ℚ) : LeaveTimeRecommendation :=
  let varianceServiceTime := options.varianceServiceTime.getD (1/5)
  let bufferTime := options.bufferTime.getD (1/5)
  let minBufferTime := options.minBufferTime.getD (5 * 60)
  let maxBufferTime := options.maxBufferTime.getD (30 * 60)
  let currentTime := options.currentTime.getD clock
  let estimatedWaitTime := calculateWaitTime position averageServiceTime varianceServiceTime rand
  let calculatedBuffer :=
    min (max ((jsRound (estimatedWaitTime * bufferTime) : ℤ) : ℚ) minBufferTime) maxBufferTime
  let recommendedLeaveIn := max 0 (estimatedWaitTime - travelTime - calculatedBuffer)
  let leaveAt := currentTime + recommendedLeaveIn * 1000
  let confidence0 := Confidence.high
  let confidence1 := if position > 10 then Confidence.medium else confidence0
  let confidence2 := if position > 20 then Confidence.low else confidence1
  { position := position
    estimatedWaitTime := estimatedWaitTime
    travelTime := travelTime
    bufferTime := calculatedBuffer
    recommendedLeaveIn := recommendedLeaveIn
    leaveAt := leaveAt
    confidence := confidence2 }

/-- The running minimum of `Math.min(...serverEndTimes)` (spread over a
non-empty list). -/
def listMin : List ℚ → ℚ
  | [] => 0
  | [x] => x
  | x :: y :: rest => min x (listMin (y :: rest))

/-- `serverEndTimes.indexOf(Math.min(...serverEndTimes))`: the first index
achieving the minimum of the list. -/
def minIdx : List ℚ → ℕ
  | [] => 0
  | [_] => 0
  | x :: y :: rest => if x ≤ listMin (y :: rest) then 0 else minIdx (y :: rest) + 1

/-- The assignment loop of `QueueUtils.calculateCompletionTimes`
(`utils/queue.ts`): one `(serverIndex, startTime, endTime)` triple per item,
greedily picking the earliest-available server and updating its end time. -/
def schedule : List ℚ → List ℚ → List (ℕ × ℚ × ℚ)
  | [], _ => []
  | t :: ts, serverEndTimes =>
    let serverIndex := minIdx serverEndTimes
    let startTime := serverEndTimes.getD serverIndex 0
    let endTime := startTime + t
    (serverIndex, startTime, endTime) :: schedule ts (serverEndTimes.set serverIndex endTime)

/-- `QueueUtils.calculateCompletionTimes` from `utils/queue.ts`, for items
carrying only a `serviceTime` field (so the `position` pre-sort is the
identity and items are processed in input order); each output pair is the
`(startTime, endTime)` of the corresponding input item. -/
def calculateCompletionTimes (serviceTimes : List ℚ) (numServers : ℕ) : List (ℚ × ℚ) :=
  if serviceTimes = [] then []
  else (schedule serviceTimes (List.replicate numServers 0)).map fun a => (a.2.1, a.2.2)

end QueueUtils

namespace TimeUtils

/-- `TimeUtils.MS_IN_SECOND` from `utils/time.ts`. -/
def MS_IN_SECOND : ℚ := 1000

/-- `TimeUtils.MS_IN_MINUTE` from `utils/time.ts`. -/
def MS_IN_MINUTE : ℚ := 60 * MS_IN_SECOND

/-- `TimeUtils.MS_IN_HOUR` from `utils/time.ts`. -/
def MS_IN_HOUR : ℚ := 60 * MS_IN_MINUTE

/-- `TimeUtils.MS_IN_DAY` from `utils/time.ts`. -/
def MS_IN_DAY : ℚ := 24 * MS_IN_HOUR

/-- `TimeUtils.MS_IN_WEEK` from `utils/time.ts`. -/
def MS_IN_WEEK : ℚ := 7 * MS_IN_DAY

/-- `TimeUtils.toMilliseconds` from `utils/time.ts`.  The unit is a runtime
string so that the `default: throw` branch of the `switch` is reachable, as it
is for unchecked JavaScript callers; a hit on that branch is the
invalid-argument failure, modelled as `Except.error`. -/
def toMilliseconds (value : ℚ) (unit : String) : Except String ℚ :=
  if unit = "milliseconds" then Except.ok value
  else if unit = "seconds" then Except.ok (value * MS_IN_SECOND)
  else if unit = "minutes" then Except.ok (value * MS_IN_MINUTE)
  else if unit = "hours" then Except.ok (value * MS_IN_HOUR)
  else if unit = "days" then Except.ok (value * MS_IN_DAY)
  else if unit = "weeks" then Except.ok (value * MS_IN_WEEK)
  else Except.error ("Unsupported time unit: " ++ unit)

/-- `TimeUtils.dateDiff` from `utils/time.ts`; the two dates are epoch
milliseconds (`Date.getTime()` values). -/
def dateDiff (date1 date2 : ℚ) (unit : String) : Except String ℚ :=
  let diffMs := |date2 - date1|
  if unit = "milliseconds" then Except.ok diffMs
  else if unit = "seconds" then Except.ok (diffMs / MS_IN_SECOND)
  else if unit = "minutes" then Except.ok (diffMs / MS_IN_MINUTE)
  else if unit = "hours" then Except.ok (diffMs / MS_IN_HOUR)
  else if unit = "days" then Except.ok (diffMs / MS_IN_DAY)
  else if unit = "weeks" then Except.ok (diffMs / MS_IN_WEEK)
  else Except.error ("Unsupported time unit: " ++ unit)

/-- Days since 1970-01-01 of the proleptic-Gregorian civil date `(y, m, d)`
with month `m` counted `1..12` (the standard `days_from_civil` algorithm),
linear in `d` so that out-of-range days carry over. -/
def daysFromCivil (y m d : ℤ) : ℤ :=
  let y2 := if m ≤ 2 then y - 1 else y
  let era := Int.fdiv y2 400
  let yoe := y2 - era * 400
  let mp := Int.emod (m + 9) 12
  let doy := Int.fdiv (153 * mp + 2) 5 + d - 1
  let doe := yoe * 365 + Int.fdiv yoe 4 - Int.fdiv yoe 100 + doy
  era * 146097 + doe - 719468

/-- Civil date `(year, month 1..12, day)` of a day count since 1970-01-01
(the standard `civil_from_days` algorithm). -/
def civilFromDays (z0 : ℤ) : ℤ × ℤ × ℤ :=
  let z := z0 + 719468
  let era := Int.fdiv z 146097
  let doe := z - era * 146097
  let yoe := Int.fdiv (doe - Int.fdiv doe 1460 + Int.fdiv doe 36524 - Int.fdiv doe 146096) 365
  let y := yoe + era * 400
  let doy := doe - (365 * yoe + Int.fdiv yoe 4 - Int.fdiv yoe 100)
  let mp := Int.fdiv (5 * doy + 2) 153
  let d := doy - Int.fdiv (153 * mp + 2) 5 + 1
  let m := mp + (if mp < 10 then 3 else -9)
  (if m ≤ 2 then y + 1 else y, m, d)

/-- A JavaScript `Date` as its local-time components: `getFullYear()`,
`getMonth()` (0-based), `getDate()`, `getHours()`, `getMinutes()`,
`getSeconds()`, `getMilliseconds()`. -/
structure JSDate where
  year : ℤ
  month : ℤ
  day : ℤ
  hours : ℤ
  minutes : ℤ
  seconds : ℤ
  ms : ℤ
deriving DecidableEq

/-- The JavaScript `new Date(year, month, day, hours, minutes, seconds, ms)`
constructor on local-time components: out-of-range components carry over
(time of day into days, month into years, day of month through the civil
calendar), exactly the normalization `startOf`/`endOf` rely on for
expressions such as `new Date(y, m + 1, 0, 23, 59, 59, 999)`. -/
def mkDate (y mo d hh mi ss ms : ℤ) : JSDate :=
  let totalMs := ms + 1000 * (ss + 60 * (mi + 60 * hh))
  let dayCarry := Int.fdiv totalMs 86400000
  let tod := Int.emod totalMs 86400000
  let y1 := y + Int.fdiv mo 12
  let m1 := Int.emod mo 12
  let dayIndex := daysFromCivil y1 (m1 + 1) 1 + (d - 1) + dayCarry
  let c := civilFromDays dayIndex
  { year := c.1
    month := c.2.1 - 1
    day := c.2.2
    hours := Int.fdiv tod 3600000
    minutes := Int.fdiv (Int.emod tod 3600000) 60000
    seconds := Int.fdiv (Int.emod tod 60000) 1000
    ms := Int.emod tod 1000 }

/-- `TimeUtils.startOf` from `utils/time.ts`.  `weekday` is `d.getDay()`
(supplied alongside the components; it is read only by the `week` branch).
The `week` branch models `new Date(d.setDate(diff))`, which shifts the day of
month while keeping the time of day. -/
def startOf (d : JSDate) (weekday : ℤ) (unit : String) : Except String JSDate :=
  if unit = "year" then Except.ok (mkDate d.year 0 1 0 0 0 0)
  else if unit = "month" then Except.ok (mkDate d.year d.month 1 0 0 0 0)
  else if unit = "week" then
    let diff := d.day - weekday + (if weekday = 0 then -6 else 1)
    Except.ok (mkDate d.year d.month diff d.hours d.minutes d.seconds d.ms)
  else if unit = "day" then Except.ok (mkDate d.year d.month d.day 0 0 0 0)
  else if unit = "hour" then Except.ok (mkDate d.year d.month d.day d.hours 0 0 0)
  else if unit = "minute" then
    Except.ok (mkDate d.year d.month d.day d.hours d.minutes 0 0)
  else if unit = "second" then
    Except.ok (mkDate d.year d.month d.day d.hours d.minutes d.seconds 0)
  else Except.error ("Unsupported unit: " ++ unit)

/-- `TimeUtils.endOf` from `utils/time.ts` (same conventions as `startOf`). -/
def endOf (d : JSDate) (weekday : ℤ) (unit : String) : Except String JSDate :=
  if unit = "year" then Except.ok (mkDate (d.year + 1) 0 0 23 59 59 999)
  else if unit = "month" then Except.ok (mkDate d.year (d.month + 1) 0 23 59 59 999)
  else if unit = "week" then
    let diff := d.day - weekday + (if weekday = 0 then -6 else 1) + 6
    Except.ok (mkDate d.year d.month diff 23 59 59 999)
  else if unit = "day" then Except.ok (mkDate d.year d.month (d.day + 1) 0 0 0 0)
  else if unit = "hour" then Except.ok (mkDate d.year d.month d.day (d.hours + 1) 0 0 0)
  else if unit = "minute" then
    Except.ok (mkDate d.year d.month d.day d.hours (d.minutes + 1) 0 0)
  else if unit = "second" then
    Except.ok (mkDate d.year d.month d.day d.hours d.minutes (d.seconds + 1) 0)
  else Except.error ("Unsupported unit: " ++ unit)

end TimeUtils

namespace TimeUtils

/-- The duration-unit characters accepted by the token regex
`(\d+)([smhdw])` of `parseDuration`. -/
def unitChars : List Char := ['s', 'm', 'h', 'd', 'w']

/-- Milliseconds contributed by one parsed token, per the `switch` in
`parseDuration` (the `switch` has no default, so an unknown unit adds 0;
the scan only ever produces the five known units). -/
def unitMs (u : Char) : ℕ :=
  if u = 's' then 1000
  else if u = 'm' then 60 * 1000
  else if u = 'h' then 60 * 60 * 1000
  else if u = 'd' then 24 * 60 * 60 * 1000
  else if u = 'w' then 7 * 24 * 60 * 60 * 1000
  else 0

/-- The numeric value of a decimal digit character. -/
def digitVal (c : Char) : ℕ := c.toNat - 48

/-- The left-to-right scan performed by `timeRegex.exec` over the input:
each maximal digit run immediately followed by a unit character yields a
`(value, unit)` token (`parseInt` of the run, base 10); a digit run followed
by anything else matches nothing, and scanning resumes after it.  The
accumulator holds the value of the digit run currently being read. -/
def scanTokens : Option ℕ → List Char → List (ℕ × Char)
  | _, [] => []
  | some n, c :: cs =>
    if c.isDigit then scanTokens (some (n * 10 + digitVal c)) cs
    else if c ∈ unitChars then (n, c) :: scanTokens none cs
    else scanTokens none cs
  | none, c :: cs =>
    if c.isDigit then scanTokens (some (digitVal c)) cs
    else scanTokens none cs

/-- `TimeUtils.parseDuration` from `utils/time.ts`: the `while` loop
accumulates `value * unit` over every regex token; `totalMs || 0` is the
identity on the accumulated (always numeric) total. -/
def parseDuration (timeString : String) : ℕ :=
  ((scanTokens none timeString.data).map fun t => t.1 * unitMs t.2).foldl (· + ·) 0

end TimeUtils

namespace NotificationUtils

/-- Values stored in a notification's `data` object. -/
inductive JSValue
  | str (s : String)
  | num (q : ℚ)
  | undef
deriving DecidableEq

/-- Insert one key-value pair into a JavaScript object (ordered key-value
list): an existing key is overwritten in place, a new key is appended. -/
def objInsert (obj : List (String × JSValue)) (kv : String × JSValue) :
    List (String × JSValue) :=
  if obj.any fun p => p.1 = kv.1 then obj.map fun p => if p.1 = kv.1 then kv else p
  else obj ++ [kv]

/-- The object literal `{k1: v1, ..., ...data}`: the later spread entries
override earlier keys. -/
def objSpread (base extra : List (String × JSValue)) : List (String × JSValue) :=
  extra.foldl objInsert base

/-- `NotificationPayload` from `utils/notifications.ts`, restricted to the
fields the builder functions set (`channelId`, `ttl`, `badge` are never set
by them). -/
structure NotificationPayload where
  type : String
  title : String
  message : String
  data : List (String × JSValue)
  priority : String
  sound : Option Bool
deriving DecidableEq

/-- `NotificationUtils.createYourTurnNowNotification` from
`utils/notifications.ts`; `nowISO` is the ambient `new Date().toISOString()`
reading at invocation time. -/
def createYourTurnNowNotification (queueName : String) (nowISO : String)
    (data : List (String × JSValue)) : NotificationPayload :=
  { type := "YOUR_TURN_NOW"
    title := "It's Your Turn!"
    message := "Please proceed to " ++ queueName ++ "."
    data := objSpread
      [("queueName", JSValue.str queueName), ("timestamp", JSValue.str nowISO)] data
    priority := "max"
    sound := some true }

/-- The `'PAUSED' | 'RESUMED' | 'CLOSED'` status argument of
`createQueueStatusNotification`. -/
inductive QueueStatusChange
  | PAUSED
  | RESUMED
  | CLOSED
deriving DecidableEq

/-- The string form of a status-change tag. -/
def QueueStatusChange.toStr : QueueStatusChange → String
  | .PAUSED => "PAUSED"
  | .RESUMED => "RESUMED"
  | .CLOSED => "CLOSED"

/-- `NotificationUtils.createQueueStatusNotification` from
`utils/notifications.ts`; `nowISO` is the ambient clock reading. -/
def createQueueStatusNotification (status : QueueStatusChange) (queueName : String)
    (reason : Option String) (nowISO : String) (data : List (String × JSValue)) :
    NotificationPayload :=
  let type := "QUEUE_" ++ status.toStr
  let titleMsg :=
    match status with
    | .PAUSED =>
      ("Queue Paused",
        match reason with
        | some r => "The queue for " ++ queueName ++ " has been paused: " ++ r
        | none => "The queue for " ++ queueName ++ " has been paused.")
    | .RESUMED => ("Queue Resumed", "The queue for " ++ queueName ++ " has been resumed.")
    | .CLOSED => ("Queue Closed", "The queue for " ++ queueName ++ " has been closed.")
  { type := type
    title := titleMsg.1
    message := titleMsg.2
    data := objSpread
      [("queueName", JSValue.str queueName),
       ("status", JSValue.str status.toStr),
       ("reason", match reason with | some r => JSValue.str r | none => JSValue.undef),
       ("timestamp", JSValue.str nowISO)] data
    priority := "high"
    sound := none }

/-- `NotificationUtils.createCustomNotification` from
`utils/notifications.ts`; `nowISO` is the ambient clock reading. -/
def createCustomNotification (title message : String) (nowISO : String)
    (data : List (String × JSValue)) : NotificationPayload :=
  { type := "CUSTOM_MESSAGE"
    title := title
    message := message
    data := objSpread [("timestamp", JSValue.str nowISO)] data
    priority := "default"
    sound := none }

end NotificationUtils

namespace GeoUtils

noncomputable section

open Real

/-- `Coordinates` from `types/common.ts`. -/
structure Coordinates where
  lat : ℝ
  lng : ℝ

/-- `EARTH_RADIUS_KM` from `utils/geo.ts`. -/
def EARTH_RADIUS_KM : ℝ := 6371

/-- `GeoUtils.toRad` from `utils/geo.ts`. -/
def toRad (degrees : ℝ) : ℝ := degrees * π / 180

/-- JavaScript `Math.atan2` on real (non-signed-zero) inputs: the argument of
the complex number `x + y·i`, lying in `(-π, π]`. -/
def atan2 (y x : ℝ) : ℝ := Complex.arg ⟨x, y⟩

/-- The truncation toward zero underlying the JavaScript `%` operator. -/
def jsTrunc (x : ℝ) : ℤ := if 0 ≤ x then ⌊x⌋ else ⌈x⌉

/-- JavaScript `%`: remainder carrying the dividend's sign. -/
def jsRem (a n : ℝ) : ℝ := a - n * jsTrunc (a / n)

/-- The longitude normalization `((deg + 540) % 360) - 180` used by both
`calculateDestination` and `calculateMidpoint`. -/
def normLng (deg : ℝ) : ℝ := jsRem (deg + 540) 360 - 180

/-- `GeoUtils.calculateDestination` from `utils/geo.ts`. -/
def calculateDestination (start : Coordinates) (distance bearing : ℝ)
    (unit : String) : Coordinates :=
  let distanceKm :=
    if unit = "km" then distance
    else if unit = "m" then distance / 1000
    else distance * 1.60934
  let lat1 := toRad start.lat
  let lng1 := toRad start.lng
  let bearingRad := toRad bearing
  let angularDistance := distanceKm / EARTH_RADIUS_KM
  let lat2 := arcsin (sin lat1 * cos angularDistance +
    cos lat1 * sin angularDistance * cos bearingRad)
  let lng2 := lng1 + atan2 (sin bearingRad * sin angularDistance * cos lat1)
    (cos angularDistance - sin lat1 * sin lat2)
  { lat := lat2 * 180 / π
    lng := normLng (lng2 * 180 / π) }

/-- `GeoUtils.calculateMidpoint` from `utils/geo.ts`. -/
def calculateMidpoint (coord1 coord2 : Coordinates) : Coordinates :=
  let lat1 := toRad coord1.lat
  let lng1 := toRad coord1.lng
  let lat2 := toRad coord2.lat
  let lng2 := toRad coord2.lng
  let bx := cos lat2 * cos (lng2 - lng1)
  let by2 := cos lat2 * sin (lng2 - lng1)
  let lat3 := atan2 (sin lat1 + sin lat2)
    (Real.sqrt ((cos lat1 + bx) * (cos lat1 + bx) + by2 * by2))
  let lng3 := lng1 + atan2 by2 (cos lat1 + bx)
  { lat := lat3 * 180 / π
    lng := normLng (lng3 * 180 / π) }

end

end GeoUtils

/-- `⌊(n : ℚ) + 1/2⌋ = n`: rounding an integer-valued rational is the identity. -/
theorem jsRound_intCast (n : ℤ) : jsRound (n : ℚ) = n := by
  unfold jsRound
  rw [add_comm, Int.floor_add_int]
  norm_num

/-- **C1.** `calculateWaitTime` with zero variance returns exactly
`position * averageServiceTime` for every integer `position ≥ 0` and
`averageServiceTime > 0`; and with `varianceServiceTime > 0` and a random draw
`r ∈ [0,1]` the result equals `max 0 (round (position * averageServiceTime * f))`
for a factor `f ∈ [1 - varianceServiceTime, 1 + varianceServiceTime]`
determined by the draw (the result is rounded to the nearest integer and
floored at 0). -/
theorem c1_calculateWaitTime_formula (p a : ℕ) (r v rand : ℚ) (ha : 0 < a) :
    QueueUtils.calculateWaitTime p a 0 rand = (p : ℚ) * a ∧
    (0 ≤ r → r ≤ 1 → 0 < v →
      ∃ f : ℚ, 1 - v ≤ f ∧ f ≤ 1 + v ∧
        QueueUtils.calculateWaitTime p a v r =
          max 0 ((jsRound ((p : ℚ) * a * f) : ℤ) : ℚ)) := by
  constructor
  · unfold QueueUtils.calculateWaitTime
    simp only [lt_irrefl, if_false]
    have hcast : (p : ℚ) * a = (((p * a : ℕ) : ℤ) : ℚ) := by push_cast; ring
    rw [hcast, jsRound_intCast]
    exact max_eq_right (by positivity)
  · intro hr0 hr1 hv
    refine ⟨1 + (r * 2 - 1) * v, ?_, ?_, ?_⟩
    · nlinarith [mul_nonneg (mul_nonneg hr0 (by norm_num : (0:ℚ) ≤ 2)) hv.le]
    · nlinarith [mul_nonneg (by linarith : (0:ℚ) ≤ 2 - r * 2) hv.le]
    · unfold QueueUtils.calculateWaitTime
      simp only [hv, if_true]

/-- Witness for C1 at concrete inputs. -/
theorem c1_calculateWaitTime_formula_witness :
    QueueUtils.calculateWaitTime 3 60 0 (7/10) = 180 ∧
    ∃ f : ℚ, 1 - (1/5) ≤ f ∧ f ≤ 1 + (1/5) ∧
      QueueUtils.calculateWaitTime 3 60 (1/5) (1/2) =
        max 0 ((jsRound ((3 : ℚ) * 60 * f) : ℤ) : ℚ) := by
  constructor
  · have h := (c1_calculateWaitTime_formula 3 60 (1/2) (1/5) (7/10) (by decide)).1
    rw [show ((3 : ℕ) : ℚ) * ((60 : ℕ) : ℚ) = 180 by norm_num] at h
    exact h
  · have h := (c1_calculateWaitTime_formula 3 60 (1/2) (1/5) (7/10) (by decide)).2
      (by norm_num) (by norm_num) (by norm_num)
    obtain ⟨f, h1, h2, h3⟩ := h
    refine ⟨f, h1, h2, ?_⟩
    rw [show ((3 : ℕ) : ℚ) = (3 : ℚ) by norm_num,
        show ((60 : ℕ) : ℚ) = (60 : ℚ) by norm_num] at h3
    exact h3

/-- **C4.** `estimateTimeUntilPosition` returns
`round((currentPosition - targetPosition) * averageServiceTime)` when
`currentPosition > 0`, `targetPosition > 0` and `targetPosition ≤ currentPosition`,
and returns `0` (not a negative value, not an error) whenever
`currentPosition ≤ 0`, `targetPosition ≤ 0` or `targetPosition > currentPosition`;
in particular `estimateTimeUntilPosition 5 8 60 = 0`. -/
theorem c4_estimateTimeUntilPosition_spec (cur tgt avg : ℚ) :
    (0 < cur → 0 < tgt → tgt ≤ cur →
      QueueUtils.estimateTimeUntilPosition cur tgt avg =
        ((jsRound ((cur - tgt) * avg) : ℤ) : ℚ)) ∧
    (cur ≤ 0 ∨ tgt ≤ 0 ∨ tgt > cur →
      QueueUtils.estimateTimeUntilPosition cur tgt avg = 0) ∧
    QueueUtils.estimateTimeUntilPosition 5 8 60 = 0 := by
  refine ⟨?_, ?_, ?_⟩
  · intro h1 h2 h3
    unfold QueueUtils.estimateTimeUntilPosition
    rw [if_neg]
    push_neg
    exact ⟨h1, h2, h3⟩
  · intro h
    unfold QueueUtils.estimateTimeUntilPosition
    rw [if_pos h]
  · unfold QueueUtils.estimateTimeUntilPosition
    rw [if_pos]
    right; right; norm_num

/-- Witness for C4 at concrete inputs. -/
theorem c4_estimateTimeUntilPosition_spec_witness :
    QueueUtils.estimateTimeUntilPosition 10 3 60 = 420 ∧
    QueueUtils.estimateTimeUntilPosition 5 8 60 = 0 := by
  constructor
  · have h := (c4_estimateTimeUntilPosition_spec 10 3 60).1
      (by norm_num) (by norm_num) (by norm_num)
    rw [h, show ((10 : ℚ) - 3) * 60 = ((420 : ℤ) : ℚ) by norm_num, jsRound_intCast]
    norm_num
  · exact ((c4_estimateTimeUntilPosition_spec 5 8 60).2.1 (by right; right; norm_num))

/-- **C5.** `calculateOptimalServers` returns
`max 1 ⌈queueLength * averageServiceTime / targetWaitTime⌉` when
`averageServiceTime > 0` and `targetWaitTime > 0`, returns `1` whenever either
of those two inputs is non-positive, satisfies the two concrete examples
`calculateOptimalServers 0 60 300 = 1` and `calculateOptimalServers 30 60 300 = 6`,
and always returns an integer that is at least `1`. -/
theorem c5_calculateOptimalServers_spec (q a t : ℚ) :
    (0 < a → 0 < t →
      QueueUtils.calculateOptimalServers q a t = max 1 ((⌈q * a / t⌉ : ℤ) : ℚ)) ∧
    (a ≤ 0 ∨ t ≤ 0 → QueueUtils.calculateOptimalServers q a t = 1) ∧
    QueueUtils.calculateOptimalServers 0 60 300 = 1 ∧
    QueueUtils.calculateOptimalServers 30 60 300 = 6 ∧
    ∃ z : ℤ, QueueUtils.calculateOptimalServers q a t = (z : ℚ) ∧ 1 ≤ z := by
  have hex1 : QueueUtils.calculateOptimalServers 0 60 300 = 1 := by
    unfold QueueUtils.calculateOptimalServers
    rw [if_neg (by norm_num), show (0 : ℚ) * 60 / 300 = ((0 : ℤ) : ℚ) by norm_num,
      Int.ceil_intCast]
    norm_num
  have hex2 : QueueUtils.calculateOptimalServers 30 60 300 = 6 := by
    unfold QueueUtils.calculateOptimalServers
    rw [if_neg (by norm_num), show (30 : ℚ) * 60 / 300 = ((6 : ℤ) : ℚ) by norm_num,
      Int.ceil_intCast]
    norm_num
  refine ⟨?_, ?_, hex1, hex2, ?_⟩
  · intro ha ht
    unfold QueueUtils.calculateOptimalServers
    rw [if_neg]
    push_neg
    exact ⟨ha, ht⟩
  · intro h
    unfold QueueUtils.calculateOptimalServers
    rw [if_pos h]
  · unfold QueueUtils.calculateOptimalServers
    by_cases h : a ≤ 0 ∨ t ≤ 0
    · exact ⟨1, by rw [if_pos h]; norm_num, le_refl 1⟩
    · refine ⟨max 1 ⌈q * a / t⌉, ?_, le_max_left 1 _⟩
      rw [if_neg h]
      push_cast [Int.cast_max]
      norm_num

/-- Witness for C5 at concrete inputs. -/
theorem c5_calculateOptimalServers_spec_witness :
    QueueUtils.calculateOptimalServers 30 60 300 = max 1 ((⌈(30 : ℚ) * 60 / 300⌉ : ℤ) : ℚ) ∧
    QueueUtils.calculateOptimalServers 30 0 300 = 1 := by
  constructor
  · exact (c5_calculateOptimalServers_spec 30 60 300).1 (by norm_num) (by norm_num)
  · exact (c5_calculateOptimalServers_spec 30 0 300).2.1 (by left; norm_num)

/-- **C9.** `isActiveStatus` and `isCompletedStatus` partition the five-value
status enumeration: for every status exactly one of the two predicates holds,
`WAITING` and `CALLED` being active and `SERVED`, `NOSHOW`, `CANCELLED`
being completed. -/
theorem c9_status_partition (s : QueueUtils.QueueEntryStatus) :
    (QueueUtils.isActiveStatus s ≠ QueueUtils.isCompletedStatus s) ∧
    (QueueUtils.isActiveStatus s = true ↔
      s = QueueUtils.QueueEntryStatus.WAITING ∨ s = QueueUtils.QueueEntryStatus.CALLED) ∧
    (QueueUtils.isCompletedStatus s = true ↔
      s = QueueUtils.QueueEntryStatus.SERVED ∨ s = QueueUtils.QueueEntryStatus.NOSHOW ∨
        s = QueueUtils.QueueEntryStatus.CANCELLED) := by
  cases s <;> refine ⟨by decide, by decide, by decide⟩

/-- Component equation for the buffer computed by `calculateRecommendedLeaveTime`. -/
theorem crlt_bufferTime_eq (p a travel clock rand : ℚ) (options : QueueUtils.LeaveOptions) :
    (QueueUtils.calculateRecommendedLeaveTime p a travel options clock rand).bufferTime =
      min
        (max
          ((jsRound
            ((QueueUtils.calculateRecommendedLeaveTime p a travel options clock
                rand).estimatedWaitTime *
              options.bufferTime.getD (1/5)) : ℤ) : ℚ)
          (options.minBufferTime.getD (5 * 60)))
        (options.maxBufferTime.getD (30 * 60)) := rfl

/-- Component equation for the confidence label of `calculateRecommendedLeaveTime`. -/
theorem crlt_confidence_eq (p a travel clock rand : ℚ) (options : QueueUtils.LeaveOptions) :
    (QueueUtils.calculateRecommendedLeaveTime p a travel options clock rand).confidence =
      if p > 20 then QueueUtils.Confidence.low
      else if p > 10 then QueueUtils.Confidence.medium
      else QueueUtils.Confidence.high := rfl

/-- **C2.** For every call of `calculateRecommendedLeaveTime`: the returned
`bufferTime` is `min maxBufferTime (max (round (estimatedWaitTime * bufferFraction))
minBufferTime)` with defaults `1/5`, `300`, `1800`; the recommended leave-in
seconds are `max 0 (estimatedWaitTime - travelTime - bufferTime)`, hence never
negative; `leaveAt` is the current time plus `recommendedLeaveIn` seconds
(epoch ms plus `recommendedLeaveIn * 1000`); and for integer positions the
confidence is `high` iff `position ≤ 10`, `medium` iff `11 ≤ position ≤ 20`,
`low` iff `position > 20`, independently of every other argument. -/
theorem c2_calculateRecommendedLeaveTime_spec (p : ℤ) (a travel clock rand : ℚ)
    (options : QueueUtils.LeaveOptions) :
    ((QueueUtils.calculateRecommendedLeaveTime p a travel options clock rand).bufferTime =
      min (options.maxBufferTime.getD (30 * 60))
        (max
          ((jsRound
            ((QueueUtils.calculateRecommendedLeaveTime p a travel options clock
                rand).estimatedWaitTime *
              options.bufferTime.getD (1/5)) : ℤ) : ℚ)
          (options.minBufferTime.getD (5 * 60)))) ∧
    ((QueueUtils.calculateRecommendedLeaveTime p a travel options clock rand).recommendedLeaveIn =
      max 0
        ((QueueUtils.calculateRecommendedLeaveTime p a travel options clock
            rand).estimatedWaitTime -
          travel -
          (QueueUtils.calculateRecommendedLeaveTime p a travel options clock rand).bufferTime)) ∧
    (0 ≤ (QueueUtils.calculateRecommendedLeaveTime p a travel options clock
        rand).recommendedLeaveIn) ∧
    ((QueueUtils.calculateRecommendedLeaveTime p a travel options clock rand).leaveAt =
      options.currentTime.getD clock +
        (QueueUtils.calculateRecommendedLeaveTime p a travel options clock
            rand).recommendedLeaveIn * 1000) ∧
    ((QueueUtils.calculateRecommendedLeaveTime p a travel options clock rand).confidence =
        QueueUtils.Confidence.high ↔ p ≤ 10) ∧
    ((QueueUtils.calculateRecommendedLeaveTime p a travel options clock rand).confidence =
        QueueUtils.Confidence.medium ↔ 11 ≤ p ∧ p ≤ 20) ∧
    ((QueueUtils.calculateRecommendedLeaveTime p a travel options clock rand).confidence =
        QueueUtils.Confidence.low ↔ 20 < p) := by
  refine ⟨(crlt_bufferTime_eq p a travel clock rand options).trans (min_comm _ _), rfl,
    le_max_left 0 _, rfl, ?_, ?_, ?_⟩
  · rw [crlt_confidence_eq]
    split_ifs with h1 h2
    · have hp : (20 : ℤ) < p := by exact_mod_cast h1
      constructor
      · intro h; exact absurd h (by decide)
      · intro h; exact absurd hp (by omega)
    · have hp : (10 : ℤ) < p := by exact_mod_cast h2
      constructor
      · intro h; exact absurd h (by decide)
      · intro h; exact absurd hp (by omega)
    · have hp : p ≤ 10 := by
        have := not_lt.mp h2
        exact_mod_cast this
      exact ⟨fun _ => hp, fun _ => rfl⟩
  · rw [crlt_confidence_eq]
    split_ifs with h1 h2
    · have hp : (20 : ℤ) < p := by exact_mod_cast h1
      constructor
      · intro h; exact absurd h (by decide)
      · intro h; exact absurd hp (by omega)
    · have hp : (10 : ℤ) < p := by exact_mod_cast h2
      have hp2 : ¬(20 : ℚ) < (p : ℚ) := h1
      have hp3 : p ≤ 20 := by
        have := not_lt.mp hp2
        exact_mod_cast this
      exact ⟨fun _ => ⟨by omega, hp3⟩, fun _ => rfl⟩
    · have hp : p ≤ 10 := by
        have := not_lt.mp h2
        exact_mod_cast this
      constructor
      · intro h; exact absurd h (by decide)
      · intro h; omega
  · rw [crlt_confidence_eq]
    split_ifs with h1 h2
    · have hp : (20 : ℤ) < p := by exact_mod_cast h1
      exact ⟨fun _ => hp, fun _ => rfl⟩
    · have hp3 : p ≤ 20 := by
        have := not_lt.mp h1
        exact_mod_cast this
      constructor
      · intro h; exact absurd h (by decide)
      · intro h; omega
    · have hp : p ≤ 10 := by
        have := not_lt.mp h2
        exact_mod_cast this
      constructor
      · intro h; exact absurd h (by decide)
      · intro h; omega

/-- `listMin` is a lower bound for every member of the list. -/
theorem listMin_le_mem : ∀ (l : List ℚ) (x : ℚ), x ∈ l → QueueUtils.listMin l ≤ x
  | [], x, h => absurd h (List.not_mem_nil x)
  | [y], x, h => by
    rcases List.mem_singleton.mp h with rfl
    simp [QueueUtils.listMin]
  | y :: z :: rest, x, h => by
    rcases List.mem_cons.mp h with rfl | h2
    · simp only [QueueUtils.listMin]
      exact min_le_left _ _
    · calc QueueUtils.listMin (y :: z :: rest) ≤ QueueUtils.listMin (z :: rest) := by
            simp only [QueueUtils.listMin]; exact min_le_right _ _
        _ ≤ x := listMin_le_mem (z :: rest) x h2

/-- `minIdx` is a valid index of a non-empty list. -/
theorem minIdx_lt_length : ∀ (l : List ℚ), l ≠ [] → QueueUtils.minIdx l < l.length
  | [], h => absurd rfl h
  | [_], _ => by simp [QueueUtils.minIdx]
  | x :: y :: rest, _ => by
    by_cases hc : x ≤ QueueUtils.listMin (y :: rest)
    · simp [QueueUtils.minIdx, hc]
    · have ih := minIdx_lt_length (y :: rest) (by simp)
      simp only [QueueUtils.minIdx, if_neg hc, List.length_cons]
      simp only [List.length_cons] at ih
      omega

/-- The element at `minIdx` is the minimum of the list. -/
theorem getD_minIdx : ∀ (l : List ℚ), l ≠ [] →
    l.getD (QueueUtils.minIdx l) 0 = QueueUtils.listMin l
  | [], h => absurd rfl h
  | [_], _ => by simp [QueueUtils.minIdx, QueueUtils.listMin]
  | x :: y :: rest, _ => by
    by_cases hc : x ≤ QueueUtils.listMin (y :: rest)
    · simp only [QueueUtils.minIdx, if_pos hc, List.getD_cons_zero, QueueUtils.listMin]
      exact (min_eq_left hc).symm
    · have ih := getD_minIdx (y :: rest) (by simp)
      have hlt := not_le.mp hc
      simp only [QueueUtils.minIdx, if_neg hc, List.getD_cons_succ, QueueUtils.listMin]
      rw [ih, min_eq_right hlt.le]

/-- Indices before `minIdx` hold strictly larger values: the first index
achieving the minimum is chosen (ties broken by lowest index). -/
theorem minIdx_first : ∀ (l : List ℚ) (j : ℕ), j < QueueUtils.minIdx l →
    QueueUtils.listMin l < l.getD j 0
  | [], j, h => by simp [QueueUtils.minIdx] at h
  | [_], j, h => by simp [QueueUtils.minIdx] at h
  | x :: y :: rest, j, h => by
    by_cases hc : x ≤ QueueUtils.listMin (y :: rest)
    · simp [QueueUtils.minIdx, hc] at h
    · have hlt := not_le.mp hc
      simp only [QueueUtils.minIdx, if_neg hc] at h
      cases j with
      | zero =>
        simp only [List.getD_cons_zero, QueueUtils.listMin]
        rw [min_eq_right hlt.le]
        exact hlt
      | succ n =>
        have ih := minIdx_first (y :: rest) n (by omega)
        simp only [List.getD_cons_succ, QueueUtils.listMin]
        rw [min_eq_right hlt.le]
        exact ih

/-- `getD` after `set` at the written index (in range). -/
theorem getD_set_same (l : List ℚ) (i : ℕ) (v : ℚ) (h : i < l.length) :
    (l.set i v).getD i 0 = v := by
  induction l generalizing i with
  | nil => simp at h
  | cons x xs ih =>
    cases i with
    | zero => simp
    | succ n =>
      simp only [List.set_cons_succ, List.getD_cons_succ]
      exact ih n (by simpa using h)

/-- `getD` after `set` at a different index. -/
theorem getD_set_other (l : List ℚ) (i k : ℕ) (v : ℚ) (h : k ≠ i) :
    (l.set i v).getD k 0 = l.getD k 0 := by
  induction l generalizing i k with
  | nil => simp
  | cons x xs ih =>
    cases i with
    | zero =>
      cases k with
      | zero => exact absurd rfl h
      | succ n => simp
    | succ m =>
      cases k with
      | zero => simp
      | succ n =>
        simp only [List.set_cons_succ, List.getD_cons_succ]
        exact ih m n (by omega)

/-- `set` beyond the end of the list is a no-op. -/
theorem set_oob (l : List ℚ) (i : ℕ) (v : ℚ) (h : l.length ≤ i) : l.set i v = l := by
  induction l generalizing i with
  | nil => simp
  | cons x xs ih =>
    cases i with
    | zero => simp at h
    | succ n =>
      simp only [List.set_cons_succ, List.cons.injEq, true_and]
      exact ih n (by simpa using h)

/-- Bumping one server's end time by a non-negative amount never decreases
any entry of the end-time list. -/
theorem getD_le_set_update (l : List ℚ) (i k : ℕ) (t : ℚ) (ht : 0 ≤ t) :
    l.getD k 0 ≤ (l.set i (l.getD i 0 + t)).getD k 0 := by
  by_cases hk : k = i
  · subst hk
    by_cases hlen : k < l.length
    · rw [getD_set_same l k _ hlen]
      linarith
    · rw [set_oob l k _ (by omega)]
  · rw [getD_set_other l i k _ hk]

/-- Every start time produced by `schedule` is at least the corresponding
server's end time at entry. -/
theorem schedule_start_ge : ∀ (ts ends : List ℚ) (k : ℕ) (s e : ℚ),
    (∀ t ∈ ts, 0 ≤ t) → (k, s, e) ∈ QueueUtils.schedule ts ends → ends.getD k 0 ≤ s
  | [], _, k, s, e, _, h => by simp [QueueUtils.schedule] at h
  | t :: ts, ends, k, s, e, hnn, h => by
    simp only [QueueUtils.schedule, List.mem_cons] at h
    rcases h with heq | hmem
    · simp only [Prod.mk.injEq] at heq
      obtain ⟨h1, h2, -⟩ := heq
      rw [h1, h2]
    · have ih := schedule_start_ge ts
        (ends.set (QueueUtils.minIdx ends) (ends.getD (QueueUtils.minIdx ends) 0 + t)) k s e
        (fun u hu => hnn u (List.mem_cons_of_mem _ hu)) hmem
      exact le_trans
        (getD_le_set_update ends (QueueUtils.minIdx ends) k t (hnn t (List.mem_cons_self t ts)))
        ih

/-- No two assignments of `schedule` on the same server overlap: the earlier
one ends no later than the later one starts. -/
theorem schedule_pairwise : ∀ (ts ends : List ℚ), ends ≠ [] → (∀ t ∈ ts, 0 ≤ t) →
    List.Pairwise (fun a b : ℕ × ℚ × ℚ => a.1 = b.1 → a.2.2 ≤ b.2.1)
      (QueueUtils.schedule ts ends)
  | [], _, _, _ => by simp [QueueUtils.schedule]
  | t :: ts, ends, hne, hnn => by
    simp only [QueueUtils.schedule]
    rw [List.pairwise_cons]
    constructor
    · rintro ⟨k, s, e⟩ hmem hk
      simp only at hk
      have hbound := schedule_start_ge ts
        (ends.set (QueueUtils.minIdx ends) (ends.getD (QueueUtils.minIdx ends) 0 + t)) k s e
        (fun u hu => hnn u (List.mem_cons_of_mem _ hu)) hmem
      rw [← hk] at hbound
      rw [getD_set_same ends _ _ (minIdx_lt_length ends hne)] at hbound
      exact hbound
    · refine schedule_pairwise ts _ ?_ (fun u hu => hnn u (List.mem_cons_of_mem _ hu))
      intro hnil
      refine hne ?_
      have h1 := congrArg List.length hnil
      rw [List.length_set] at h1
      exact List.length_eq_zero.mp h1

/-- `schedule` produces exactly one assignment per input item. -/
theorem schedule_length : ∀ (ts ends : List ℚ),
    (QueueUtils.schedule ts ends).length = ts.length
  | [], _ => rfl
  | t :: ts, ends => by
    simp only [QueueUtils.schedule, List.length_cons, schedule_length ts]

/-- Each assignment of `schedule` ends exactly its item's service time after
it starts. -/
theorem schedule_endTime : ∀ (ts ends : List ℚ) (i : ℕ), i < ts.length →
    ((QueueUtils.schedule ts ends).getD i (0, 0, 0)).2.2 =
      ((QueueUtils.schedule ts ends).getD i (0, 0, 0)).2.1 + ts.getD i 0
  | [], _, i, h => by simp at h
  | t :: ts, ends, 0, _ => by simp [QueueUtils.schedule]
  | t :: ts, ends, i + 1, h => by
    simp only [QueueUtils.schedule, List.getD_cons_succ]
    exact schedule_endTime ts _ i (by simpa using h)

/-- `getD` through the projection map used by `calculateCompletionTimes`. -/
theorem getD_map_pair : ∀ (l : List (ℕ × ℚ × ℚ)) (i : ℕ), i < l.length →
    (l.map fun a => (a.2.1, a.2.2)).getD i (0, 0) =
      ((l.getD i (0, 0, 0)).2.1, (l.getD i (0, 0, 0)).2.2)
  | [], i, h => by simp at h
  | a :: l, 0, _ => by simp
  | a :: l, i + 1, h => by
    simp only [List.map_cons, List.getD_cons_succ]
    exact getD_map_pair l i (by simpa using h)

/-- **C3.** `calculateCompletionTimes` returns one `(startTime, endTime)`
assignment per input item (in input order) with `endTime = startTime +
serviceTime`; each item goes to the server with the minimal next-free time,
ties broken by the lowest server index, so assignments on the same server
never overlap; the concrete examples of the specification hold, and an empty
input yields an empty result. -/
theorem c3_calculateCompletionTimes_spec (serviceTimes : List ℚ) (numServers : ℕ)
    (hn : 1 ≤ numServers) (hnn : ∀ t ∈ serviceTimes, 0 ≤ t) :
    (QueueUtils.calculateCompletionTimes serviceTimes numServers).length =
      serviceTimes.length ∧
    (∀ i, i < serviceTimes.length →
      ((QueueUtils.calculateCompletionTimes serviceTimes numServers).getD i (0, 0)).2 =
        ((QueueUtils.calculateCompletionTimes serviceTimes numServers).getD i (0, 0)).1 +
          serviceTimes.getD i 0) ∧
    List.Pairwise (fun a b : ℕ × ℚ × ℚ => a.1 = b.1 → a.2.2 ≤ b.2.1)
      (QueueUtils.schedule serviceTimes (List.replicate numServers 0)) ∧
    (∀ (l : List ℚ) (j : ℕ), l ≠ [] → j < l.length →
      l.getD (QueueUtils.minIdx l) 0 ≤ l.getD j 0) ∧
    (∀ (l : List ℚ) (j : ℕ), j < QueueUtils.minIdx l →
      l.getD (QueueUtils.minIdx l) 0 < l.getD j 0) ∧
    QueueUtils.calculateCompletionTimes [10, 20, 5] 1 = [(0, 10), (10, 30), (30, 35)] ∧
    QueueUtils.calculateCompletionTimes [10, 10] 2 = [(0, 10), (0, 10)] ∧
    QueueUtils.calculateCompletionTimes [] numServers = [] := by
  have hrep : (List.replicate numServers (0 : ℚ)) ≠ [] := by
    intro h
    have := congrArg List.length h
    simp at this
    omega
  have hex1 : QueueUtils.calculateCompletionTimes [10, 20, 5] 1 =
      [(0, 10), (10, 30), (30, 35)] := by
    unfold QueueUtils.calculateCompletionTimes
    rw [if_neg (by simp)]
    norm_num [QueueUtils.schedule, QueueUtils.minIdx, QueueUtils.listMin, List.replicate]
  have hex2 : QueueUtils.calculateCompletionTimes [10, 10] 2 = [(0, 10), (0, 10)] := by
    unfold QueueUtils.calculateCompletionTimes
    rw [if_neg (by simp)]
    norm_num [QueueUtils.schedule, QueueUtils.minIdx, QueueUtils.listMin, List.replicate]
  refine ⟨?_, ?_, schedule_pairwise serviceTimes _ hrep hnn, ?_, ?_, hex1, hex2, rfl⟩
  · by_cases hnil : serviceTimes = []
    · subst hnil; rfl
    · unfold QueueUtils.calculateCompletionTimes
      rw [if_neg hnil, List.length_map, schedule_length]
  · intro i hi
    by_cases hnil : serviceTimes = []
    · subst hnil; simp at hi
    · unfold QueueUtils.calculateCompletionTimes
      rw [if_neg hnil]
      have hlen : i < (QueueUtils.schedule serviceTimes (List.replicate numServers 0)).length := by
        rw [schedule_length]; exact hi
      rw [getD_map_pair _ i hlen]
      exact schedule_endTime serviceTimes _ i hi
  · intro l j hne hj
    rw [getD_minIdx l hne]
    exact listMin_le_mem l _ (by
      rw [List.getD_eq_getElem l 0 hj]
      exact List.getElem_mem hj)
  · intro l j hj
    have hne : l ≠ [] := by
      intro h
      subst h
      simp [QueueUtils.minIdx] at hj
    rw [getD_minIdx l hne]
    exact minIdx_first l j hj

/-- Witness for C3 at concrete inputs. -/
theorem c3_calculateCompletionTimes_spec_witness :
    (QueueUtils.calculateCompletionTimes [10, 20, 5] 1).length = 3 ∧
    QueueUtils.calculateCompletionTimes [10, 10] 2 = [(0, 10), (0, 10)] := by
  constructor
  · have h := (c3_calculateCompletionTimes_spec [10, 20, 5] 1 (by decide) (by decide)).1
    rw [h]
    rfl
  · exact (c3_calculateCompletionTimes_spec [10, 10] 2 (by decide)
      (by decide)).2.2.2.2.2.2.1

/-- Rounding a non-positive value never yields a positive integer. -/
theorem jsRound_nonpos {x : ℚ} (h : x ≤ 0) : jsRound x ≤ 0 := by
  unfold jsRound
  have h1 : ⌊x + 1/2⌋ ≤ ⌊(1 : ℚ)/2⌋ := Int.floor_le_floor (by linarith)
  have h2 : ⌊(1 : ℚ)/2⌋ = 0 := by
    rw [Int.floor_eq_zero_iff]
    constructor <;> norm_num
  omega

/-- `toMilliseconds` fails exactly on units outside the supported six. -/
theorem toMilliseconds_error_iff (v : ℚ) (u : String) :
    (∃ e, TimeUtils.toMilliseconds v u = Except.error e) ↔
      u ∉ ["milliseconds", "seconds", "minutes", "hours", "days", "weeks"] := by
  unfold TimeUtils.toMilliseconds
  split_ifs with h1 h2 h3 h4 h5 h6
  · exact ⟨fun ⟨e, he⟩ => he.elim, fun hn => absurd (by simp [h1]) hn⟩
  · exact ⟨fun ⟨e, he⟩ => he.elim, fun hn => absurd (by simp [h2]) hn⟩
  · exact ⟨fun ⟨e, he⟩ => he.elim, fun hn => absurd (by simp [h3]) hn⟩
  · exact ⟨fun ⟨e, he⟩ => he.elim, fun hn => absurd (by simp [h4]) hn⟩
  · exact ⟨fun ⟨e, he⟩ => he.elim, fun hn => absurd (by simp [h5]) hn⟩
  · exact ⟨fun ⟨e, he⟩ => he.elim, fun hn => absurd (by simp [h6]) hn⟩
  · refine ⟨fun _ hmem => ?_, fun _ => ⟨_, rfl⟩⟩
    simp only [List.mem_cons, List.not_mem_nil, or_false] at hmem
    rcases hmem with h | h | h | h | h | h <;> contradiction

/-- `dateDiff` fails exactly on units outside the supported six. -/
theorem dateDiff_error_iff (d1 d2 : ℚ) (u : String) :
    (∃ e, TimeUtils.dateDiff d1 d2 u = Except.error e) ↔
      u ∉ ["milliseconds", "seconds", "minutes", "hours", "days", "weeks"] := by
  unfold TimeUtils.dateDiff
  split_ifs with h1 h2 h3 h4 h5 h6
  · exact ⟨fun ⟨e, he⟩ => he.elim, fun hn => absurd (by simp [h1]) hn⟩
  · exact ⟨fun ⟨e, he⟩ => he.elim, fun hn => absurd (by simp [h2]) hn⟩
  · exact ⟨fun ⟨e, he⟩ => he.elim, fun hn => absurd (by simp [h3]) hn⟩
  · exact ⟨fun ⟨e, he⟩ => he.elim, fun hn => absurd (by simp [h4]) hn⟩
  · exact ⟨fun ⟨e, he⟩ => he.elim, fun hn => absurd (by simp [h5]) hn⟩
  · exact ⟨fun ⟨e, he⟩ => he.elim, fun hn => absurd (by simp [h6]) hn⟩
  · refine ⟨fun _ hmem => ?_, fun _ => ⟨_, rfl⟩⟩
    simp only [List.mem_cons, List.not_mem_nil, or_false] at hmem
    rcases hmem with h | h | h | h | h | h <;> contradiction

/-- `startOf` fails exactly on units outside the supported seven. -/
theorem startOf_error_iff (d : TimeUtils.JSDate) (wd : ℤ) (u : String) :
    (∃ e, TimeUtils.startOf d wd u = Except.error e) ↔
      u ∉ ["year", "month", "week", "day", "hour", "minute", "second"] := by
  unfold TimeUtils.startOf
  split_ifs with h1 h2 h3 h4 h5 h6 h7
  · exact ⟨fun ⟨e, he⟩ => he.elim, fun hn => absurd (by simp [h1]) hn⟩
  · exact ⟨fun ⟨e, he⟩ => he.elim, fun hn => absurd (by simp [h2]) hn⟩
  · exact ⟨fun ⟨e, he⟩ => he.elim, fun hn => absurd (by simp [h3]) hn⟩
  · exact ⟨fun ⟨e, he⟩ => he.elim, fun hn => absurd (by simp [h4]) hn⟩
  · exact ⟨fun ⟨e, he⟩ => he.elim, fun hn => absurd (by simp [h5]) hn⟩
  · exact ⟨fun ⟨e, he⟩ => he.elim, fun hn => absurd (by simp [h6]) hn⟩
  · exact ⟨fun ⟨e, he⟩ => he.elim, fun hn => absurd (by simp [h7]) hn⟩
  · refine ⟨fun _ hmem => ?_, fun _ => ⟨_, rfl⟩⟩
    simp only [List.mem_cons, List.not_mem_nil, or_false] at hmem
    rcases hmem with h | h | h | h | h | h | h <;> contradiction

/-- `endOf` fails exactly on units outside the supported seven. -/
theorem endOf_error_iff (d : TimeUtils.JSDate) (wd : ℤ) (u : String) :
    (∃ e, TimeUtils.endOf d wd u = Except.error e) ↔
      u ∉ ["year", "month", "week", "day", "hour", "minute", "second"] := by
  unfold TimeUtils.endOf
  split_ifs with h1 h2 h3 h4 h5 h6 h7
  · exact ⟨fun ⟨e, he⟩ => he.elim, fun hn => absurd (by simp [h1]) hn⟩
  · exact ⟨fun ⟨e, he⟩ => he.elim, fun hn => absurd (by simp [h2]) hn⟩
  · exact ⟨fun ⟨e, he⟩ => he.elim, fun hn => absurd (by simp [h3]) hn⟩
  · exact ⟨fun ⟨e, he⟩ => he.elim, fun hn => absurd (by simp [h4]) hn⟩
  · exact ⟨fun ⟨e, he⟩ => he.elim, fun hn => absurd (by simp [h5]) hn⟩
  · exact ⟨fun ⟨e, he⟩ => he.elim, fun hn => absurd (by simp [h6]) hn⟩
  · exact ⟨fun ⟨e, he⟩ => he.elim, fun hn => absurd (by simp [h7]) hn⟩
  · refine ⟨fun _ hmem => ?_, fun _ => ⟨_, rfl⟩⟩
    simp only [List.mem_cons, List.not_mem_nil, or_false] at hmem
    rcases hmem with h | h | h | h | h | h | h <;> contradiction

/-- **C6.** The time-unit operations (`toMilliseconds`, `dateDiff`, `startOf`,
`endOf`) raise an invalid-argument failure exactly when their unit argument
lies outside the supported enumeration; the numeric queue-engine operations
are total functions (they are plain Lean functions into plain values, never
`Except`) and return the documented safe defaults (`0`, `1`, the identity, or
the empty list) on degenerate numeric inputs. -/
theorem c6_error_policy :
    (∀ (v : ℚ) (u : String), (∃ e, TimeUtils.toMilliseconds v u = Except.error e) ↔
      u ∉ ["milliseconds", "seconds", "minutes", "hours", "days", "weeks"]) ∧
    (∀ (d1 d2 : ℚ) (u : String), (∃ e, TimeUtils.dateDiff d1 d2 u = Except.error e) ↔
      u ∉ ["milliseconds", "seconds", "minutes", "hours", "days", "weeks"]) ∧
    (∀ (d : TimeUtils.JSDate) (wd : ℤ) (u : String),
      (∃ e, TimeUtils.startOf d wd u = Except.error e) ↔
        u ∉ ["year", "month", "week", "day", "hour", "minute", "second"]) ∧
    (∀ (d : TimeUtils.JSDate) (wd : ℤ) (u : String),
      (∃ e, TimeUtils.endOf d wd u = Except.error e) ↔
        u ∉ ["year", "month", "week", "day", "hour", "minute", "second"]) ∧
    (∀ p a r : ℚ, 0 ≤ p → a ≤ 0 → QueueUtils.calculateWaitTime p a 0 r = 0) ∧
    (∀ c t a : ℚ, c ≤ 0 ∨ t ≤ 0 ∨ t > c →
      QueueUtils.estimateTimeUntilPosition c t a = 0) ∧
    (∀ ns te : ℚ, te ≤ 0 → QueueUtils.calculateNoShowProbability ns te = 0) ∧
    (∀ (mexp : ℚ → ℚ) (e p pos : ℚ), p ≤ 0 ∨ pos ≤ 0 →
      QueueUtils.adjustForNoShowProbability mexp e p pos = e) ∧
    (∀ t a n : ℚ, a ≤ 0 → QueueUtils.estimateServedInTime t a n = 0) ∧
    (∀ q a t : ℚ, a ≤ 0 ∨ t ≤ 0 → QueueUtils.calculateOptimalServers q a t = 1) ∧
    (∀ n : ℕ, QueueUtils.calculateCompletionTimes [] n = []) := by
  refine ⟨toMilliseconds_error_iff, dateDiff_error_iff, startOf_error_iff, endOf_error_iff,
    ?_, ?_, ?_, ?_, ?_, ?_, fun n => rfl⟩
  · intro p a r hp ha
    unfold QueueUtils.calculateWaitTime
    simp only [lt_irrefl, if_false]
    have h1 : p * a ≤ 0 := by
      have := mul_le_mul_of_nonneg_left ha hp
      simpa using this
    have h2 := jsRound_nonpos h1
    have h3 : ((jsRound (p * a) : ℤ) : ℚ) ≤ 0 := by exact_mod_cast h2
    exact max_eq_left h3
  · intro c t a h
    unfold QueueUtils.estimateTimeUntilPosition
    rw [if_pos h]
  · intro ns te h
    unfold QueueUtils.calculateNoShowProbability
    rw [if_pos h]
  · intro mexp e p pos h
    unfold QueueUtils.adjustForNoShowProbability
    rw [if_pos h]
  · intro t a n h
    unfold QueueUtils.estimateServedInTime
    rw [if_pos h]
  · intro q a t h
    unfold QueueUtils.calculateOptimalServers
    rw [if_pos h]

/-- Witness for C6 at concrete inputs. -/
theorem c6_error_policy_witness :
    (∃ e, TimeUtils.toMilliseconds 5 "fortnights" = Except.error e) ∧
    (∃ e, TimeUtils.dateDiff 0 1000 "decades" = Except.error e) ∧
    (∃ e, TimeUtils.startOf ⟨2024, 0, 15, 12, 30, 30, 500⟩ 1 "quarter" = Except.error e) ∧
    (∃ e, TimeUtils.endOf ⟨2024, 0, 15, 12, 30, 30, 500⟩ 1 "quarter" = Except.error e) ∧
    QueueUtils.calculateWaitTime 5 (-60) 0 (1/2) = 0 ∧
    QueueUtils.estimateTimeUntilPosition (-1) 3 60 = 0 ∧
    QueueUtils.calculateNoShowProbability 7 0 = 0 ∧
    QueueUtils.adjustForNoShowProbability (fun x => x) 600 0 5 = 600 ∧
    QueueUtils.estimateServedInTime 3600 0 2 = 0 ∧
    QueueUtils.calculateOptimalServers 30 60 (-300) = 1 ∧
    QueueUtils.calculateCompletionTimes [] 3 = [] := by
  obtain ⟨h1, h2, h3, h4, h5, h6, h7, h8, h9, h10, h11⟩ := c6_error_policy
  exact ⟨(h1 5 "fortnights").mpr (by decide), (h2 0 1000 "decades").mpr (by decide),
    (h3 ⟨2024, 0, 15, 12, 30, 30, 500⟩ 1 "quarter").mpr (by decide),
    (h4 ⟨2024, 0, 15, 12, 30, 30, 500⟩ 1 "quarter").mpr (by decide),
    h5 5 (-60) (1/2) (by norm_num) (by norm_num),
    h6 (-1) 3 60 (by norm_num),
    h7 7 0 (by norm_num),
    h8 (fun x => x) 600 0 5 (by norm_num),
    h9 3600 0 2 (by norm_num),
    h10 30 60 (-300) (by norm_num),
    h11 3⟩

/-- Folding addition from an accumulator equals the accumulator plus the sum. -/
theorem foldl_add_eq_sum : ∀ (l : List ℕ) (n : ℕ), l.foldl (· + ·) n = n + l.sum
  | [], n => by simp
  | x :: xs, n => by
    simp only [List.foldl_cons, List.sum_cons, foldl_add_eq_sum xs]
    omega

/-- **C10.** `parseDuration` is total and non-negative: every string yields a
non-negative integer count of milliseconds (never an error); a string whose
scan yields no `<digits><unit>` token gives 0, and otherwise the result is
the sum over the tokens of `value * unit`, with the unit factors
`s = 1000`, `m = 60000`, `h = 3600000`, `d = 86400000`, `w = 604800000`;
in particular `parseDuration "2h 30m" = 9000000`. -/
theorem c10_parseDuration_total (s : String) :
    0 ≤ TimeUtils.parseDuration s ∧
    (TimeUtils.scanTokens none s.data = [] → TimeUtils.parseDuration s = 0) ∧
    TimeUtils.parseDuration s =
      ((TimeUtils.scanTokens none s.data).map fun t => t.1 * TimeUtils.unitMs t.2).sum ∧
    TimeUtils.unitMs 's' = 1000 ∧ TimeUtils.unitMs 'm' = 60000 ∧
    TimeUtils.unitMs 'h' = 3600000 ∧ TimeUtils.unitMs 'd' = 86400000 ∧
    TimeUtils.unitMs 'w' = 604800000 ∧
    TimeUtils.parseDuration "2h 30m" = 9000000 := by
  refine ⟨Nat.zero_le _, ?_, ?_, by decide, by decide, by decide, by decide, by decide,
    by decide⟩
  · intro h
    unfold TimeUtils.parseDuration
    rw [h]
    rfl
  · unfold TimeUtils.parseDuration
    rw [foldl_add_eq_sum]
    omega

/-- Witness for C10 at concrete inputs. -/
theorem c10_parseDuration_total_witness :
    TimeUtils.parseDuration "no duration here" = 0 ∧
    TimeUtils.parseDuration "2h 30m" = 9000000 := by
  have h1 := c10_parseDuration_total "no duration here"
  have h2 := c10_parseDuration_total "2h 30m"
  exact ⟨h1.2.1 (by decide), h2.2.2.2.2.2.2.2.2⟩

/-- With zero variance the variance branch is dead and the random draw is
irrelevant: `calculateWaitTime` is a function of `position` and
`averageServiceTime` alone. -/
theorem calculateWaitTime_zero_variance (p a r1 r2 : ℚ) :
    QueueUtils.calculateWaitTime p a 0 r1 = QueueUtils.calculateWaitTime p a 0 r2 := by
  unfold QueueUtils.calculateWaitTime
  simp

/-- Evaluation of `calculateWaitTime` with positive variance at an
integer-valued product. -/
theorem calculateWaitTime_eval (p a v r : ℚ) (hv : 0 < v) (n : ℤ)
    (hn : p * a * (1 + (r * 2 - 1) * v) = (n : ℚ)) (hpos : 0 ≤ n) :
    QueueUtils.calculateWaitTime p a v r = (n : ℚ) := by
  unfold QueueUtils.calculateWaitTime
  simp only [hv, if_true]
  rw [hn, jsRound_intCast]
  exact max_eq_right (by exact_mod_cast hpos)

/-- **C7 counterexample.** Two invocations of `createCustomNotification` with
identical explicit arguments but distinct ambient clock readings return
different payloads: the builder embeds `new Date().toISOString()` — a hidden
clock read, not an argument — in `data.timestamp`, so the operation is not
deterministic in its arguments as the claim states. -/
theorem c7_counterexample :
    NotificationUtils.createCustomNotification "Hello" "World"
        "2024-01-01T00:00:00.000Z" [] ≠
      NotificationUtils.createCustomNotification "Hello" "World"
        "2024-01-01T00:00:01.000Z" [] := by
  decide

/-- **C7 (amended).** Apart from the variance multiplier of
`calculateWaitTime` — drawn from the hidden global `Math.random()`, not from
an injectable source — and the ambient clock read by
`createYourTurnNowNotification`, `createQueueStatusNotification` and
`createCustomNotification` (and used as the default `currentTime` of
`calculateRecommendedLeaveTime`, where it *is* injectable), every operation
is deterministic: with the random draw dead (variance 0) and the current time
injected, identical arguments give identical results, independent of the
ambient inputs; the variance draw is an essential dependency of
`calculateWaitTime` with positive variance, and the clock reading is an
essential dependency of the three notification builders. -/
theorem c7_determinism_amended :
    (∀ p a r1 r2 : ℚ,
      QueueUtils.calculateWaitTime p a 0 r1 = QueueUtils.calculateWaitTime p a 0 r2) ∧
    QueueUtils.calculateWaitTime 10 60 (1/5) 0 ≠
      QueueUtils.calculateWaitTime 10 60 (1/5) (1/2) ∧
    (∀ (p a travel t : ℚ) (bf mb xb : Option ℚ) (clock1 clock2 rand1 rand2 : ℚ),
      QueueUtils.calculateRecommendedLeaveTime p a travel
          ⟨some 0, bf, mb, xb, some t⟩ clock1 rand1 =
        QueueUtils.calculateRecommendedLeaveTime p a travel
          ⟨some 0, bf, mb, xb, some t⟩ clock2 rand2) ∧
    (∀ (qn n1 n2 : String), n1 ≠ n2 →
      NotificationUtils.createYourTurnNowNotification qn n1 [] ≠
        NotificationUtils.createYourTurnNowNotification qn n2 []) ∧
    (∀ (qn n1 n2 : String) (st : NotificationUtils.QueueStatusChange), n1 ≠ n2 →
      NotificationUtils.createQueueStatusNotification st qn none n1 [] ≠
        NotificationUtils.createQueueStatusNotification st qn none n2 []) ∧
    (∀ (ti me n1 n2 : String), n1 ≠ n2 →
      NotificationUtils.createCustomNotification ti me n1 [] ≠
        NotificationUtils.createCustomNotification ti me n2 []) := by
  refine ⟨calculateWaitTime_zero_variance, ?_, ?_, ?_, ?_, ?_⟩
  · rw [calculateWaitTime_eval 10 60 (1/5) 0 (by norm_num) 480 (by norm_num) (by norm_num),
      calculateWaitTime_eval 10 60 (1/5) (1/2) (by norm_num) 600 (by norm_num) (by norm_num)]
    norm_num
  · intro p a travel t bf mb xb clock1 clock2 rand1 rand2
    unfold QueueUtils.calculateRecommendedLeaveTime
    simp only [Option.getD_some]
    rw [calculateWaitTime_zero_variance p a rand1 rand2]
  · intro qn n1 n2 hne h
    apply hne
    have hd := congrArg NotificationUtils.NotificationPayload.data h
    simpa [NotificationUtils.createYourTurnNowNotification,
      NotificationUtils.objSpread] using hd
  · intro qn n1 n2 st hne h
    apply hne
    have hd := congrArg NotificationUtils.NotificationPayload.data h
    simpa [NotificationUtils.createQueueStatusNotification,
      NotificationUtils.objSpread] using hd
  · intro ti me n1 n2 hne h
    apply hne
    have hd := congrArg NotificationUtils.NotificationPayload.data h
    simpa [NotificationUtils.createCustomNotification,
      NotificationUtils.objSpread] using hd

/-- Witness for the amended C7 at concrete inputs. -/
theorem c7_determinism_amended_witness :
    QueueUtils.calculateWaitTime 7 30 0 (1/3) = QueueUtils.calculateWaitTime 7 30 0 (2/3) ∧
    NotificationUtils.createCustomNotification "Hi" "There"
        "2024-01-01T00:00:00.000Z" [] ≠
      NotificationUtils.createCustomNotification "Hi" "There"
        "2024-01-02T00:00:00.000Z" [] := by
  obtain ⟨h1, h2, h3, h4, h5, h6⟩ := c7_determinism_amended
  exact ⟨h1 7 30 (1/3) (2/3), h6 "Hi" "There" _ _ (by decide)⟩

/-- `atan2` always lies in `(-π, π]`. -/
theorem atan2_mem_Ioc (y x : ℝ) :
    GeoUtils.atan2 y x ∈ Set.Ioc (-Real.pi) Real.pi :=
  Complex.arg_mem_Ioc _

/-- The normalization `((x + 540) % 360) - 180` lands in `[-180, 180)`
whenever the shifted argument is positive. -/
theorem normLng_mem {x : ℝ} (hx : 0 < x + 540) :
    GeoUtils.normLng x ∈ Set.Ico (-180 : ℝ) 180 := by
  unfold GeoUtils.normLng GeoUtils.jsRem GeoUtils.jsTrunc
  have hdiv : (0 : ℝ) ≤ (x + 540) / 360 := div_nonneg hx.le (by norm_num)
  rw [if_pos hdiv]
  have hfr0 : 0 ≤ Int.fract ((x + 540) / 360) := Int.fract_nonneg _
  have hfr1 : Int.fract ((x + 540) / 360) < 1 := Int.fract_lt_one _
  have key : 360 * Int.fract ((x + 540) / 360) =
      x + 540 - 360 * (⌊(x + 540) / 360⌋ : ℝ) := by
    rw [Int.fract]
    field_simp
  rw [Set.mem_Ico]
  constructor
  · linarith
  · linarith

/-- `toRad` maps `[-180, 180]` into `[-π, π]`. -/
theorem toRad_bounds {d : ℝ} (h1 : -180 ≤ d) (h2 : d ≤ 180) :
    -Real.pi ≤ GeoUtils.toRad d ∧ GeoUtils.toRad d ≤ Real.pi := by
  unfold GeoUtils.toRad
  have hpi := Real.pi_pos
  constructor
  · have := mul_le_mul_of_nonneg_right h1 hpi.le
    linarith
  · have := mul_le_mul_of_nonneg_right h2 hpi.le
    linarith

/-- A longitude of the form `normLng ((lng1 + a) * 180 / π)` with
`lng1 ∈ [-π, π]` and `a ∈ (-π, π]` lies in `[-180, 180)`. -/
theorem normLng_bounds {lng1 a : ℝ} (h1 : -Real.pi ≤ lng1) (h2 : lng1 ≤ Real.pi)
    (ha : a ∈ Set.Ioc (-Real.pi) Real.pi) :
    GeoUtils.normLng ((lng1 + a) * 180 / Real.pi) ∈ Set.Ico (-180 : ℝ) 180 := by
  have hpi := Real.pi_pos
  obtain ⟨ha1, ha2⟩ := ha
  apply normLng_mem
  have hgt : -2 * Real.pi < lng1 + a := by linarith
  have hquot : (0 : ℝ) < 180 / Real.pi := by positivity
  have h5 : (-2 * Real.pi) * (180 / Real.pi) < (lng1 + a) * (180 / Real.pi) :=
    mul_lt_mul_of_pos_right hgt hquot
  have h6 : (-2 * Real.pi) * (180 / Real.pi) = -360 := by
    field_simp
    ring
  have h7 : (lng1 + a) * 180 / Real.pi = (lng1 + a) * (180 / Real.pi) := by ring
  rw [h7]
  linarith

/-- The longitude returned by `calculateDestination` lies in `[-180, 180)`. -/
theorem calculateDestination_lng_mem (start : GeoUtils.Coordinates)
    (distance bearing : ℝ) (unit : String)
    (h3 : -180 ≤ start.lng) (h4 : start.lng ≤ 180) :
    (GeoUtils.calculateDestination start distance bearing unit).lng ∈
      Set.Ico (-180 : ℝ) 180 := by
  obtain ⟨hl1, hl2⟩ := toRad_bounds h3 h4
  exact normLng_bounds hl1 hl2 (atan2_mem_Ioc _ _)

/-- The longitude returned by `calculateMidpoint` lies in `[-180, 180)`. -/
theorem calculateMidpoint_lng_mem (c1 c2 : GeoUtils.Coordinates)
    (h13 : -180 ≤ c1.lng) (h14 : c1.lng ≤ 180) :
    (GeoUtils.calculateMidpoint c1 c2).lng ∈ Set.Ico (-180 : ℝ) 180 := by
  obtain ⟨hl1, hl2⟩ := toRad_bounds h13 h14
  exact normLng_bounds hl1 hl2 (atan2_mem_Ioc _ _)

/-- Evaluation of `atan2` at `(0, 1)`. -/
theorem atan2_zero_one : GeoUtils.atan2 0 1 = 0 := by
  unfold GeoUtils.atan2
  have h : (⟨1, 0⟩ : ℂ) = ((1 : ℝ) : ℂ) := by
    apply Complex.ext <;> simp
  rw [h, Complex.arg_ofReal_of_nonneg (by norm_num)]

/-- The normalization maps `180` to `-180`. -/
theorem normLng_at_180 : GeoUtils.normLng 180 = -180 := by
  unfold GeoUtils.normLng GeoUtils.jsRem GeoUtils.jsTrunc
  rw [if_pos (by norm_num : (0 : ℝ) ≤ ((180 : ℝ) + 540) / 360)]
  rw [show ((180 : ℝ) + 540) / 360 = ((2 : ℤ) : ℝ) by norm_num, Int.floor_intCast]
  norm_num

/-- **C8 counterexample.** The valid input `{lat: 0, lng: 180}` with distance
0 and bearing 0 is a fixed point up to normalization: `calculateDestination`
returns longitude exactly `-180`, which is not in the half-open interval
`(-180, 180]` the claim asserts. -/
theorem c8_counterexample :
    (GeoUtils.calculateDestination ⟨0, 180⟩ 0 0 "km").lng = -180 ∧
    (GeoUtils.calculateDestination ⟨0, 180⟩ 0 0 "km").lng ∉
      Set.Ioc (-180 : ℝ) 180 := by
  have hpi := Real.pi_pos
  have hmain : (GeoUtils.calculateDestination ⟨0, 180⟩ 0 0 "km").lng =
      GeoUtils.normLng 180 := by
    simp only [GeoUtils.calculateDestination]
    norm_num [GeoUtils.toRad, GeoUtils.EARTH_RADIUS_KM, atan2_zero_one, Real.sin_zero,
      Real.cos_zero, Real.arcsin_zero]
    congr 1
    field_simp
  rw [hmain, normLng_at_180]
  constructor
  · rfl
  · simp [Set.mem_Ioc]

/-- **C8 (amended).** For every valid input (start coordinate with
`lat ∈ [-90, 90]` and `lng ∈ [-180, 180]`, any distance and bearing; any pair
of valid coordinates for the midpoint), the `lng` component returned by
`calculateDestination` and by `calculateMidpoint` lies in the half-open
interval `[-180, 180)` (the code's `((deg + 540) % 360) - 180` includes
`-180` and excludes `180`, the mirror image of the claimed `(-180, 180]`). -/
theorem c8_longitude_normalized (start : GeoUtils.Coordinates) (distance bearing : ℝ)
    (unit : String) (c1 c2 : GeoUtils.Coordinates)
    (hs1 : -90 ≤ start.lat) (hs2 : start.lat ≤ 90)
    (hs3 : -180 ≤ start.lng) (hs4 : start.lng ≤ 180)
    (h11 : -90 ≤ c1.lat) (h12 : c1.lat ≤ 90)
    (h13 : -180 ≤ c1.lng) (h14 : c1.lng ≤ 180)
    (h21 : -90 ≤ c2.lat) (h22 : c2.lat ≤ 90)
    (h23 : -180 ≤ c2.lng) (h24 : c2.lng ≤ 180) :
    (GeoUtils.calculateDestination start distance bearing unit).lng ∈
      Set.Ico (-180 : ℝ) 180 ∧
    (GeoUtils.calculateMidpoint c1 c2).lng ∈ Set.Ico (-180 : ℝ) 180 :=
  ⟨calculateDestination_lng_mem start distance bearing unit hs3 hs4,
    calculateMidpoint_lng_mem c1 c2 h13 h14⟩

/-- Witness for the amended C8 at concrete inputs. -/
theorem c8_longitude_normalized_witness :
    (GeoUtils.calculateDestination ⟨0, 0⟩ 0 0 "km").lng ∈ Set.Ico (-180 : ℝ) 180 ∧
    (GeoUtils.calculateMidpoint ⟨0, 0⟩ ⟨0, 0⟩).lng ∈ Set.Ico (-180 : ℝ) 180 :=
  c8_longitude_normalized ⟨0, 0⟩ 0 0 "km" ⟨0, 0⟩ ⟨0, 0⟩ (by norm_num) (by norm_num)
    (by norm_num) (by norm_num) (by norm_num) (by norm_num) (by norm_num) (by norm_num)
    (by norm_num) (by norm_num) (by norm_num) (by norm_num)
